import Mathlib

/-!
Verification development for the simpleperf JIT/Dex debug-info reader
(src/simpleperf/JITDebugReader.cpp).

The definitions below are a shallow embedding of the reader.  Target-process
memory and the other-process environment are passed explicitly: a remote read
that can fail or be racy is a function returning `Option`, and the two
snapshots a tick takes of the target descriptors are separate parameters, so
a mutation between the walk and the re-check is a pair of different values.
Machine integers are `Nat`; the one place where 32-bit wraparound matters
(the seqlock difference) uses an explicit `% 2 ^ 32`.  The reader modelled is
the default (non-x86) build, whose structure sizes are the second group of
static_asserts in the source.
-/

set_option maxHeartbeats 1000000

namespace JITDebug

/-- Descriptor kind tag (enum DescriptorType: kJIT, kDEX). -/
inductive DescriptorType
  | kJIT
  | kDEX
deriving DecidableEq

/-- Normalized descriptor snapshot (struct Descriptor in JITDebugReader.h):
kind tag, Android version (1 or 2 from the magic), action seqlock, action
timestamp and the head of the code-entry list. -/
structure Descriptor where
  type : DescriptorType
  version : Nat
  action_seqlock : Nat
  action_timestamp : Nat
  first_entry_addr : Nat
deriving DecidableEq

/-- Byte values of the 8-byte magic "Android1". -/
def android1Magic : List Nat := [65, 110, 100, 114, 111, 105, 100, 49]

/-- Byte values of the 8-byte magic "Android2". -/
def android2Magic : List Nat := [65, 110, 100, 114, 111, 105, 100, 50]

/-- Raw on-target descriptor, template JITDescriptor of ADDRT.  Addresses are
Nat regardless of target bitness; the bitness only selects expected sizes in
`Valid`, passed as `addrSize` (4 or 8 = sizeof(ADDRT)). -/
structure JITDescriptorRaw where
  version : Nat
  action_flag : Nat
  relevant_entry_addr : Nat
  first_entry_addr : Nat
  magic : List Nat
  flags : Nat
  sizeof_descriptor : Nat
  sizeof_entry : Nat
  action_seqlock : Nat
  action_timestamp : Nat
deriving DecidableEq

/-- JITDescriptor::AndroidVersion(): magic[7] - the character zero. -/
def JITDescriptorRaw.AndroidVersion (d : JITDescriptorRaw) : Nat :=
  d.magic.getD 7 0 - 48

/-- sizeof(JITCodeEntry32) in the default (non-x86) build: 32. -/
def sizeofJITCodeEntry32 : Nat := 32

/-- sizeof(JITCodeEntry32V2) in the default (non-x86) build: 40. -/
def sizeofJITCodeEntry32V2 : Nat := 40

/-- sizeof(JITCodeEntry64): 40. -/
def sizeofJITCodeEntry64 : Nat := 40

/-- sizeof(JITCodeEntry64V2) in the default (non-x86) build: 48. -/
def sizeofJITCodeEntry64V2 : Nat := 48

/-- sizeof(JITDescriptor32) = 48, sizeof(JITDescriptor64) = 56. -/
def sizeofDescriptorFor (addrSize : Nat) : Nat := if addrSize = 4 then 48 else 56

/-- JITDescriptor::Valid().  The last two returns of the source are

  return sizeof_entry == (AndroidVersion() == 1) ? sizeof(JITCodeEntry32)
                                                 : sizeof(JITCodeEntry32V2);

and the 64-bit twin.  In C++, == binds tighter than ?:, so this parses as
(sizeof_entry == (AndroidVersion() == 1)) ? 32 : 40 and the selected size_t
is then converted to the returned bool.  The embedding reproduces exactly
that parse: the bool (AndroidVersion() == 1) converts to 1 or 0 for the
comparison, and the selected size converts to the result via a test against
zero. -/
def JITDescriptorRaw.Valid (addrSize : Nat) (d : JITDescriptorRaw) : Bool :=
  if d.version ≠ 1 ∨ ¬ (d.magic = android1Magic ∨ d.magic = android2Magic) then
    false
  else if sizeofDescriptorFor addrSize ≠ d.sizeof_descriptor then
    false
  else if addrSize = 4 then
    decide ((if d.sizeof_entry = (if d.AndroidVersion = 1 then 1 else 0)
             then sizeofJITCodeEntry32 else sizeofJITCodeEntry32V2) ≠ 0)
  else
    decide ((if d.sizeof_entry = (if d.AndroidVersion = 1 then 1 else 0)
             then sizeofJITCodeEntry64 else sizeofJITCodeEntry64V2) ≠ 0)

/-- JITDebugReader::ParseDescriptor: validate, then copy the action seqlock,
action timestamp, list head and Android version.  The type tag is written by
the caller (ReadDescriptorsImpl); the kJIT put here is that default. -/
def ParseDescriptor (addrSize : Nat) (raw : JITDescriptorRaw) : Option Descriptor :=
  if raw.Valid addrSize then
    some { type := DescriptorType.kJIT, version := raw.AndroidVersion,
           action_seqlock := raw.action_seqlock,
           action_timestamp := raw.action_timestamp,
           first_entry_addr := raw.first_entry_addr }
  else none

/-- Parsing stage of JITDebugReader::ReadDescriptorsImpl: the vectorized
remote read yields either nothing (short read, the process is marked died)
or a raw pair; both raw descriptors must parse, and the results are tagged
kJIT and kDEX. -/
def ParseDescriptorPair (addrSize : Nat) :
    Option (JITDescriptorRaw × JITDescriptorRaw) → Option (Descriptor × Descriptor)
  | none => none
  | some (rawJit, rawDex) =>
    match ParseDescriptor addrSize rawJit, ParseDescriptor addrSize rawDex with
    | some j, some d =>
      some ({ j with type := DescriptorType.kJIT }, { d with type := DescriptorType.kDEX })
    | _, _ => none

/-- On-target code entry for magic "Android1" (template JITCodeEntry). -/
structure JITCodeEntry where
  next_addr : Nat
  prev_addr : Nat
  symfile_addr : Nat
  symfile_size : Nat
  register_timestamp : Nat
deriving DecidableEq

/-- JITCodeEntry::Valid(): symfile_addr > 0u && symfile_size > 0u. -/
def JITCodeEntry.Valid (e : JITCodeEntry) : Bool :=
  decide (0 < e.symfile_addr) && decide (0 < e.symfile_size)

/-- On-target code entry for magic "Android2" (template JITCodeEntryV2). -/
structure JITCodeEntryV2 where
  next_addr : Nat
  prev_addr : Nat
  symfile_addr : Nat
  symfile_size : Nat
  register_timestamp : Nat
  seqlock : Nat
deriving DecidableEq

/-- JITCodeEntryV2::Valid(): (seqlock & 1) == 0, and nothing else. -/
def JITCodeEntryV2.Valid (e : JITCodeEntryV2) : Bool :=
  decide (e.seqlock &&& 1 = 0)

/-- Reader-side record of a new code entry (struct CodeEntry). -/
structure CodeEntry where
  addr : Nat
  symfile_addr : Nat
  symfile_size : Nat
  timestamp : Nat
deriving DecidableEq

/-- Field access for the C++ template parameter CodeEntryT of
ReadNewCodeEntriesImpl: the four instantiations all expose these five fields
and a Valid predicate. -/
structure CodeEntryOps (α : Type) where
  next_addr : α → Nat
  prev_addr : α → Nat
  symfile_addr : α → Nat
  symfile_size : α → Nat
  register_timestamp : α → Nat
  valid : α → Bool

/-- The v1 instantiation of the walker template. -/
def v1Ops : CodeEntryOps JITCodeEntry where
  next_addr := fun e => e.next_addr
  prev_addr := fun e => e.prev_addr
  symfile_addr := fun e => e.symfile_addr
  symfile_size := fun e => e.symfile_size
  register_timestamp := fun e => e.register_timestamp
  valid := JITCodeEntry.Valid

/-- The v2 instantiation of the walker template. -/
def v2Ops : CodeEntryOps JITCodeEntryV2 where
  next_addr := fun e => e.next_addr
  prev_addr := fun e => e.prev_addr
  symfile_addr := fun e => e.symfile_addr
  symfile_size := fun e => e.symfile_size
  register_timestamp := fun e => e.register_timestamp
  valid := JITCodeEntryV2.Valid

/-- The loop of JITDebugReader::ReadNewCodeEntriesImpl.  `fuel` is the
remaining read-entry budget (read_entry_limit minus the iterations done),
`visited` models entry_addr_set, `acc` collects new entries in reverse and
`hops` counts the loop iterations executed so far.  The checks appear in
source order: loop condition (budget, then null), cycle check, remote read
(none = short read, the source also marks the process died there), back
pointer and per-entry Valid, timestamp cutoff, then the push guarded by
symfile_size > 0.  `none` models the `return false` of a broken list. -/
def readNewCodeEntriesLoop {α : Type} (ops : CodeEntryOps α) (read : Nat → Option α)
    (last_action_timestamp : Nat) :
    Nat → Nat → Nat → List Nat → List CodeEntry → Nat → Option (List CodeEntry × Nat)
  | 0, _, _, _, acc, hops => some (acc.reverse, hops)
  | fuel + 1, current, prev, visited, acc, hops =>
    if current = 0 then some (acc.reverse, hops)
    else if current ∈ visited then none
    else
      match read current with
      | none => none
      | some e =>
        if ops.prev_addr e ≠ prev ∨ ops.valid e = false then none
        else if ops.register_timestamp e ≤ last_action_timestamp then some (acc.reverse, hops)
        else
          readNewCodeEntriesLoop ops read last_action_timestamp fuel (ops.next_addr e) current
            (current :: visited)
            (if 0 < ops.symfile_size e then
              { addr := current, symfile_addr := ops.symfile_addr e,
                symfile_size := ops.symfile_size e,
                timestamp := ops.register_timestamp e } :: acc
             else acc)
            (hops + 1)

/-- JITDebugReader::ReadNewCodeEntriesImpl: start at the descriptor head with
an empty visited set and prev = 0. -/
def ReadNewCodeEntriesImpl {α : Type} (ops : CodeEntryOps α) (read : Nat → Option α)
    (descriptor : Descriptor) (last_action_timestamp read_entry_limit : Nat) :
    Option (List CodeEntry × Nat) :=
  readNewCodeEntriesLoop ops read last_action_timestamp read_entry_limit
    descriptor.first_entry_addr 0 [] [] 0

/-- Target memory as seen through ReadRemoteMem at entry granularity: reading
sizeof(CodeEntryT) bytes at an address and reinterpreting them, for each of
the two entry layouts.  `none` is a short read. -/
structure TargetMem where
  readV1 : Nat → Option JITCodeEntry
  readV2 : Nat → Option JITCodeEntryV2

/-- JITDebugReader::ReadNewCodeEntries: dispatch on descriptor.version (the
further 32/64-bit dispatch only selects the byte layout, which `TargetMem`
already abstracts); any other version returns false. -/
def ReadNewCodeEntries (mem : TargetMem) (descriptor : Descriptor)
    (last_action_timestamp read_entry_limit : Nat) : Option (List CodeEntry × Nat) :=
  if descriptor.version = 1 then
    ReadNewCodeEntriesImpl v1Ops mem.readV1 descriptor last_action_timestamp read_entry_limit
  else if descriptor.version = 2 then
    ReadNewCodeEntriesImpl v2Ops mem.readV2 descriptor last_action_timestamp read_entry_limit
  else none

/-- JITDebugReader::IsDescriptorChanged: re-read both descriptors (the
parsed outcome of that second ReadDescriptors call is the argument; none is
a failed read) and compare the seqlock of the matching kind.  A failed
re-read counts as changed. -/
def IsDescriptorChanged (reRead : Option (Descriptor × Descriptor))
    (prev_descriptor : Descriptor) : Bool :=
  match reRead with
  | none => true
  | some (jit, dex) =>
    if prev_descriptor.type = DescriptorType.kJIT then
      decide (prev_descriptor.action_seqlock ≠ jit.action_seqlock)
    else
      decide (prev_descriptor.action_seqlock ≠ dex.action_seqlock)

/-- Unsigned 32-bit subtraction, the type at which the two action seqlocks
are subtracted in the source. -/
def u32sub (a b : Nat) : Nat := (a % 2 ^ 32 + 2 ^ 32 - b % 2 ^ 32) % 2 ^ 32

/-- JITDebugReader::ReadDebugInfo.  Returns (entries committed to emission,
the stored last descriptor afterwards, the bool the function returns).
has_update requires a seqlock change and an even new seqlock; the read-entry
limit is the 32-bit seqlock difference halved; a failed walk or a changed
re-read skips the tick.  `emitOk` stands for ReadJITCodeDebugInfo returning
true: when it returns false the source propagates false without updating the
stored descriptor and the caller then drops the whole batch, so nothing is
committed. -/
def ReadDebugInfo (old_descriptor new_descriptor : Descriptor) (mem : TargetMem)
    (reRead : Option (Descriptor × Descriptor)) (emitOk : Bool) :
    List CodeEntry × Descriptor × Bool :=
  if ¬ (new_descriptor.action_seqlock ≠ old_descriptor.action_seqlock ∧
        new_descriptor.action_seqlock &&& 1 = 0) then
    ([], old_descriptor, true)
  else
    match ReadNewCodeEntries mem new_descriptor old_descriptor.action_timestamp
        (u32sub new_descriptor.action_seqlock old_descriptor.action_seqlock / 2) with
    | none => ([], old_descriptor, true)
    | some (new_entries, _) =>
      if IsDescriptorChanged reRead new_descriptor then ([], old_descriptor, true)
      else if new_descriptor.type = DescriptorType.kJIT ∧ new_entries ≠ [] ∧ emitOk = false then
        ([], old_descriptor, false)
      else (new_entries, new_descriptor, true)

/-- Which scratch symfile an ingested JIT entry is appended to. -/
inductive ScratchKind
  | app
  | zygote
deriving DecidableEq

/-- Modelled from the spec: the debug-info record (struct JITDebugInfo, declared
in JITDebugReader_impl.h, which is not under src/).  Process id, monotonic
timestamp, and either the JIT form (symbol vaddr and length, which scratch
file, and the byte range of the symfile slice in it) or the DEX form (offset
in the file, file path, optional snapshot of the extracted-dex mapping). -/
inductive DebugPayload
  | jit (symbol_vaddr symbol_len : Nat) (file : ScratchKind) (sliceStart sliceEnd : Nat)
  | dex (dex_file_offset : Nat) (file_path : String) (extracted : Option Nat)
deriving DecidableEq

/-- Modelled from the spec: one debug-info record delivered to the consumer.
The extracted-dex mapping snapshot is referenced by its index in the map
list rather than copied. -/
structure JITDebugInfo where
  pid : Nat
  timestamp : Nat
  payload : DebugPayload
deriving DecidableEq

/-- Modelled from the spec: debug_info_q_ (declared in JITDebugReader_impl.h,
not under src/) is a priority queue that pops the smallest timestamp first;
it is modelled as a list kept sorted by timestamp, inserting here. -/
def insertByTs (r : JITDebugInfo) : List JITDebugInfo → List JITDebugInfo
  | [] => [r]
  | x :: xs => if r.timestamp < x.timestamp then r :: x :: xs else x :: insertByTs r xs

/-- The drain loop of JITDebugReader::FlushDebugInfo: pop every queued record
whose timestamp is below the watermark, in heap (ascending) order.  Returns
(drained batch, remaining queue). -/
def drainBelow (watermark : Nat) : List JITDebugInfo → List JITDebugInfo × List JITDebugInfo
  | [] => ([], [])
  | x :: xs =>
    if x.timestamp < watermark then
      ((x :: (drainBelow watermark xs).1), (drainBelow watermark xs).2)
    else ([], x :: xs)

/-- JITDebugReader::FlushDebugInfo.  `syncWithRecords` is
sync_option_ == kSyncWithRecords.  Returns the queue afterwards and, when the
consumer callback is invoked, the batch and the bool passed to it; `none`
means the function returned true without calling the callback. -/
def FlushDebugInfo (syncWithRecords : Bool) (q : List JITDebugInfo) (timestamp : Nat) :
    List JITDebugInfo × Option (List JITDebugInfo × Bool) :=
  if syncWithRecords then
    match q with
    | [] => (q, none)
    | x :: _ =>
      if x.timestamp < timestamp then
        ((drainBelow timestamp q).2, some ((drainBelow timestamp q).1, false))
      else (q, none)
  else (q, none)

/-- JITDebugReader::AddDebugInfo.  An empty batch does nothing; otherwise in
ordered mode every record is pushed into the queue, and in immediate mode the
batch goes straight to the callback with the given sync_kernel_records flag. -/
def AddDebugInfo (syncWithRecords : Bool) (q : List JITDebugInfo)
    (debug_info : List JITDebugInfo) (sync_kernel_records : Bool) :
    List JITDebugInfo × Option (List JITDebugInfo × Bool) :=
  if debug_info = [] then (q, none)
  else if syncWithRecords then
    (debug_info.foldl (fun acc i => insertByTs i acc) q, none)
  else (q, some (debug_info, sync_kernel_records))

/-- One external event hitting the queue in ordered mode: a batch of gathered
debug info handed to AddDebugInfo, or a record-stream watermark handed to
FlushDebugInfo. -/
inductive QOp
  | add (infos : List JITDebugInfo) (syncKernel : Bool)
  | flush (watermark : Nat)

/-- Run a sequence of queue events in ordered (sync-with-records) mode,
collecting every consumer-callback invocation as (watermark, batch, flag).
In ordered mode AddDebugInfo never invokes the callback. -/
def runOrdered : List QOp → List JITDebugInfo →
    List JITDebugInfo × List (Nat × List JITDebugInfo × Bool)
  | [], q => (q, [])
  | QOp.add infos sk :: rest, q =>
    runOrdered rest (AddDebugInfo true q infos sk).1
  | QOp.flush w :: rest, q =>
    match FlushDebugInfo true q w with
    | (q2, none) => runOrdered rest q2
    | (q2, some (batch, flag)) =>
      ((runOrdered rest q2).1, (w, batch, flag) :: (runOrdered rest q2).2)

/-- Timestamps of all delivered records, in delivery order. -/
def deliveredTs (ds : List (Nat × List JITDebugInfo × Bool)) : List Nat :=
  (ds.map (fun d => d.2.1.map (fun r => r.timestamp))).flatten

/-- The per-process state the ingestion and resolution paths touch: pid, the
died flag set by short remote reads, and the zygote JIT cache ranges
gathered at initialization. -/
structure Process where
  pid : Nat
  died : Bool
  jit_zygote_cache_ranges : List (Nat × Nat)
deriving DecidableEq

/-- Modelled from the spec: MAX_JIT_SYMFILE_SIZE = 1 * kMegabyte, where
kMegabyte comes from utils.h (not under src/) and the spec fixes the cap at
1 MiB. -/
def MAX_JIT_SYMFILE_SIZE : Nat := 1024 * 1024

/-- One parsed ELF symbol (vaddr and length) as seen by the symbol callback. -/
structure ElfSymbol where
  vaddr : Nat
  len : Nat
deriving DecidableEq

/-- Environment of ReadJITCodeDebugInfo: the outcomes of its external calls,
keyed by the (symfile_addr, symfile_size) being read where the outcome
depends on the bytes.  readOk is ReadRemoteMem, elfMagicOk is
IsValidElfFileMagic, elfOpenOk and symbols are ElfFile::Open/ParseSymbols on
the read bytes, createAppOk and createZygoteOk are TempSymFile::Create, and
writeOk is TempSymFile::WriteEntry at a given (offset, size). -/
structure JITReadEnv where
  readOk : Nat → Nat → Bool
  elfMagicOk : Nat → Nat → Bool
  elfOpenOk : Nat → Nat → Bool
  symbols : Nat → Nat → List ElfSymbol
  createAppOk : Bool
  createZygoteOk : Bool
  writeOk : Nat → Nat → Bool

/-- State of the two scratch symfiles (app_symfile_, zygote_symfile_): none
until lazily created, then the current append offset.  Modelled from the
spec: a fresh scratch starts at offset 0 and is append-only. -/
structure ScratchState where
  appFile : Option Nat
  zygoteFile : Option Nat
deriving DecidableEq

/-- Membership of an address in one of the zygote cache ranges, the loop at
the top of JITDebugReader::GetTempSymFile (half-open ranges). -/
def isZygoteAddr (ranges : List (Nat × Nat)) (addr : Nat) : Bool :=
  ranges.any (fun r => decide (r.1 ≤ addr) && decide (addr < r.2))

/-- JITDebugReader::GetTempSymFile: pick the zygote scratch when the symfile
address falls in a zygote cache range, else the app scratch; create it
lazily, and fail (none, the source returns nullptr) when creation fails. -/
def GetTempSymFile (env : JITReadEnv) (p : Process) (scratch : ScratchState)
    (symfile_addr : Nat) : Option (ScratchKind × ScratchState) :=
  if isZygoteAddr p.jit_zygote_cache_ranges symfile_addr then
    match scratch.zygoteFile with
    | some _ => some (ScratchKind.zygote, scratch)
    | none =>
      if env.createZygoteOk then some (ScratchKind.zygote, { scratch with zygoteFile := some 0 })
      else none
  else
    match scratch.appFile with
    | some _ => some (ScratchKind.app, scratch)
    | none =>
      if env.createAppOk then some (ScratchKind.app, { scratch with appFile := some 0 })
      else none

/-- Current append offset of a scratch (TempSymFile::GetOffset). -/
def scratchOffset (s : ScratchState) : ScratchKind → Nat
  | ScratchKind.app => s.appFile.getD 0
  | ScratchKind.zygote => s.zygoteFile.getD 0

/-- Effect of TempSymFile::WriteEntry of `size` bytes on the offsets. -/
def scratchWrite (s : ScratchState) (k : ScratchKind) (size : Nat) : ScratchState :=
  match k with
  | ScratchKind.app => { s with appFile := some (s.appFile.getD 0 + size) }
  | ScratchKind.zygote => { s with zygoteFile := some (s.zygoteFile.getD 0 + size) }

/-- JITDebugReader::ReadJITCodeDebugInfo.  Per entry, in source order: skip
when symfile_size exceeds the cap; a short remote read marks the process died
and moves on; a bad ELF magic moves on; a null scratch (failed creation) or
a failed WriteEntry returns false immediately (records emitted for earlier
entries stay in the output vector); otherwise the pre-write offset F is
remembered, the bytes are appended, and if ElfFile::Open succeeds one record
per parsed symbol of non-zero length is emitted carrying the slice
[F, F + symfile_size).  Returns (process, scratch state, emitted records,
returned bool).  The trailing Flush calls have no observable effect here. -/
def ReadJITCodeDebugInfo (env : JITReadEnv) (p : Process) (scratch : ScratchState) :
    List CodeEntry → Process × ScratchState × List JITDebugInfo × Bool
  | [] => (p, scratch, [], true)
  | e :: rest =>
    if MAX_JIT_SYMFILE_SIZE < e.symfile_size then
      ReadJITCodeDebugInfo env p scratch rest
    else if env.readOk e.symfile_addr e.symfile_size = false then
      ReadJITCodeDebugInfo env { p with died := true } scratch rest
    else if env.elfMagicOk e.symfile_addr e.symfile_size = false then
      ReadJITCodeDebugInfo env p scratch rest
    else
      match GetTempSymFile env p scratch e.symfile_addr with
      | none => (p, scratch, [], false)
      | some (kind, scratch1) =>
        if env.writeOk (scratchOffset scratch1 kind) e.symfile_size = false then
          (p, scratch1, [], false)
        else
          ((ReadJITCodeDebugInfo env p (scratchWrite scratch1 kind e.symfile_size) rest).1,
           (ReadJITCodeDebugInfo env p (scratchWrite scratch1 kind e.symfile_size) rest).2.1,
           (if env.elfOpenOk e.symfile_addr e.symfile_size then
              ((env.symbols e.symfile_addr e.symfile_size).filter (fun s => s.len ≠ 0)).map
                (fun s => { pid := p.pid, timestamp := e.timestamp,
                            payload := DebugPayload.jit s.vaddr s.len kind
                              (scratchOffset scratch1 kind)
                              (scratchOffset scratch1 kind + e.symfile_size) })
            else []) ++
           (ReadJITCodeDebugInfo env p (scratchWrite scratch1 kind e.symfile_size) rest).2.2.1,
           (ReadJITCodeDebugInfo env p (scratchWrite scratch1 kind e.symfile_size) rest).2.2.2)

/-- Modelled from the spec: a target memory mapping (struct ThreadMmap from
environment.h, not under src/), with the fields the resolver reads. -/
structure ThreadMmap where
  start_addr : Nat
  len : Nat
  pgoff : Nat
  name : String
deriving DecidableEq

/-- Environment of ReadDexFileDebugInfo: the target memory map at this tick
(none when GetThreadMmapsInProcess fails), ParseExtractedInMemoryPath and
IsRegularFile on mapping names. -/
structure DexEnv where
  thread_mmaps : Option (List ThreadMmap)
  parseExtracted : String → Option (String × String)
  isRegularFile : String → Bool

/-- Modelled from the spec: GetUrlInApk (read_apk.h, not under src/) forms
the synthetic url for a dex entry inside an apk. -/
def GetUrlInApk (zip_path entry_path : String) : String :=
  zip_path ++ "!/" ++ entry_path

/-- Index returned by std::lower_bound over the map list with comparator
`map.start_addr <= addr`: the first index whose mapping has start_addr
strictly greater than addr (list length when there is none).  std::lower_bound
requires the range to be partitioned by the comparator, which holds when the
maps are sorted by start address; on such input this linear formulation is
what the binary search returns. -/
def lowerBoundIdx : List ThreadMmap → Nat → Nat
  | [], _ => 0
  | m :: rest, addr => if m.start_addr ≤ addr then lowerBoundIdx rest addr + 1 else 0

/-- The body of the per-entry loop of JITDebugReader::ReadDexFileDebugInfo:
take the mapping just before the lower bound (skip when the lower bound is
the beginning), apply the coverage check
`it->start_addr + it->len < dex_entry.symfile_addr + dex_entry.symfile_size`
- both sums computed in wrapping uint64 arithmetic, hence the explicit
`% 2 ^ 64` on each side - then resolve the mapping name to a file path
(extracted-in-memory apk form, else a regular file, else skip), and emit the
record with dex_file_offset = symfile_addr - start_addr + pgoff, again a
uint64 computation (the subtraction cannot wrap here because the chosen
mapping starts at or below symfile_addr, but the pgoff addition can). -/
def resolveDexEntry (env : DexEnv) (maps : List ThreadMmap) (pid : Nat) (e : CodeEntry) :
    Option JITDebugInfo :=
  match lowerBoundIdx maps e.symfile_addr with
  | 0 => none
  | i + 1 =>
    match maps[i]? with
    | none => none
    | some m =>
      if (m.start_addr + m.len) % 2 ^ 64 < (e.symfile_addr + e.symfile_size) % 2 ^ 64 then none
      else
        match env.parseExtracted m.name with
        | some (zip_path, entry_path) =>
          some { pid := pid, timestamp := e.timestamp,
                 payload := DebugPayload.dex
                   ((e.symfile_addr - m.start_addr + m.pgoff) % 2 ^ 64)
                   (GetUrlInApk zip_path entry_path) (some i) }
        | none =>
          if env.isRegularFile m.name = false then none
          else
            some { pid := pid, timestamp := e.timestamp,
                   payload := DebugPayload.dex
                     ((e.symfile_addr - m.start_addr + m.pgoff) % 2 ^ 64)
                     m.name none }

/-- JITDebugReader::ReadDexFileDebugInfo: a failed map read marks the process
died and emits nothing; otherwise each entry resolves independently. -/
def ReadDexFileDebugInfo (env : DexEnv) (p : Process) (entries : List CodeEntry) :
    Process × List JITDebugInfo :=
  match env.thread_mmaps with
  | none => ({ p with died := true }, [])
  | some maps => (p, entries.filterMap (resolveDexEntry env maps p.pid))

/-! ## Shared fixtures and helper lemmas -/

/-- Target memory holding one v1 entry at address 16 whose next pointer
points back to itself: a one-node cycle, and a walk in it never meets a null
next pointer. -/
def memLoop : TargetMem where
  readV1 := fun a => if a = 16 then
    some { next_addr := 16, prev_addr := 0, symfile_addr := 100, symfile_size := 8,
           register_timestamp := 50 }
    else none
  readV2 := fun _ => none

/-- A stored JIT descriptor snapshot with seqlock 0. -/
def oldD : Descriptor :=
  { type := DescriptorType.kJIT, version := 1, action_seqlock := 0, action_timestamp := 0,
    first_entry_addr := 0 }

/-- A fresh JIT descriptor snapshot with seqlock 2 whose list head is the
entry at 16. -/
def newD : Descriptor :=
  { type := DescriptorType.kJIT, version := 1, action_seqlock := 2, action_timestamp := 10,
    first_entry_addr := 16 }

/-- A DEX descriptor snapshot for re-read pairs. -/
def dexD : Descriptor :=
  { type := DescriptorType.kDEX, version := 1, action_seqlock := 0, action_timestamp := 0,
    first_entry_addr := 0 }

/-- The walker loop executes at most `fuel` further iterations: whenever it
returns at all, the final hop count exceeds the starting one by at most the
remaining budget. -/
theorem readNewCodeEntriesLoop_hops_le {α : Type} (ops : CodeEntryOps α)
    (read : Nat → Option α) (ts : Nat) :
    ∀ (fuel current prev : Nat) (visited : List Nat) (acc : List CodeEntry)
      (hops0 : Nat) (es : List CodeEntry) (hops : Nat),
      readNewCodeEntriesLoop ops read ts fuel current prev visited acc hops0 = some (es, hops) →
      hops ≤ hops0 + fuel := by
  intro fuel
  induction fuel with
  | zero =>
    intro current prev visited acc hops0 es hops h
    simp only [readNewCodeEntriesLoop] at h
    cases h
    omega
  | succ n ih =>
    intro current prev visited acc hops0 es hops h
    simp only [readNewCodeEntriesLoop] at h
    split at h
    · cases h; omega
    · split at h
      · exact absurd h (by simp)
      · split at h
        · exact absurd h (by simp)
        · rename_i e heq
          split at h
          · exact absurd h (by simp)
          · split at h
            · cases h; omega
            · have := ih _ _ _ _ (hops0 + 1) es hops h
              omega

/-- Case analysis on ReadDebugInfo: either nothing is committed and the
stored descriptor is unchanged, or the committed branch was taken, in which
case the re-read agreed and the new seqlock was even. -/
theorem readDebugInfo_cases (old_descriptor new_descriptor : Descriptor) (mem : TargetMem)
    (reRead : Option (Descriptor × Descriptor)) (emitOk : Bool) :
    ((ReadDebugInfo old_descriptor new_descriptor mem reRead emitOk).1 = [] ∧
     (ReadDebugInfo old_descriptor new_descriptor mem reRead emitOk).2.1 = old_descriptor) ∨
    (IsDescriptorChanged reRead new_descriptor = false ∧
     new_descriptor.action_seqlock &&& 1 = 0 ∧
     (ReadDebugInfo old_descriptor new_descriptor mem reRead emitOk).2.1 = new_descriptor) := by
  unfold ReadDebugInfo
  split
  · exact Or.inl ⟨rfl, rfl⟩
  · rename_i hupd
    rw [not_not] at hupd
    split
    · exact Or.inl ⟨rfl, rfl⟩
    · rename_i entries heq
      split
      · exact Or.inl ⟨rfl, rfl⟩
      · rename_i hchanged
        split
        · exact Or.inl ⟨rfl, rfl⟩
        · exact Or.inr ⟨by simpa using hchanged, hupd.2, rfl⟩

/-! ## C1 -/

/-- C1: for every tick and descriptor kind, entries are committed and the
stored descriptor updated (old := new) only when the re-read of the
descriptors succeeds and agrees with the walk snapshot on the action
seqlock; a disagreeing (or failed) re-read, or an odd snapshot seqlock at
the first read, commits nothing and leaves the stored descriptor
unchanged. -/
theorem c1_commit_requires_seqlock_agreement (old_descriptor new_descriptor : Descriptor)
    (mem : TargetMem) (reRead : Option (Descriptor × Descriptor)) (emitOk : Bool) :
    (((ReadDebugInfo old_descriptor new_descriptor mem reRead emitOk).1 ≠ [] ∨
      (ReadDebugInfo old_descriptor new_descriptor mem reRead emitOk).2.1 ≠ old_descriptor) →
      IsDescriptorChanged reRead new_descriptor = false) ∧
    (new_descriptor.action_seqlock % 2 = 1 →
      (ReadDebugInfo old_descriptor new_descriptor mem reRead emitOk).1 = [] ∧
      (ReadDebugInfo old_descriptor new_descriptor mem reRead emitOk).2.1 = old_descriptor) ∧
    (IsDescriptorChanged reRead new_descriptor = true →
      (ReadDebugInfo old_descriptor new_descriptor mem reRead emitOk).1 = [] ∧
      (ReadDebugInfo old_descriptor new_descriptor mem reRead emitOk).2.1 = old_descriptor) := by
  have hc := readDebugInfo_cases old_descriptor new_descriptor mem reRead emitOk
  refine ⟨?_, ?_, ?_⟩
  · intro hcommit
    rcases hc with ⟨h1, h2⟩ | ⟨h1, _, _⟩
    · rcases hcommit with h | h
      · exact absurd h1 h
      · exact absurd h2 h
    · exact h1
  · intro hodd
    rcases hc with ⟨h1, h2⟩ | ⟨_, heven, _⟩
    · exact ⟨h1, h2⟩
    · rw [Nat.and_one_is_mod] at heven
      omega
  · intro hchanged
    rcases hc with ⟨h1, h2⟩ | ⟨h1, _, _⟩
    · exact ⟨h1, h2⟩
    · rw [h1] at hchanged
      cases hchanged

/-- Witness for C1: a concrete tick that does commit (entries nonempty), at
which the theorem yields that the re-read agreed. -/
theorem c1_commit_requires_seqlock_agreement_witness :
    (ReadDebugInfo oldD newD memLoop (some (newD, dexD)) true).1 ≠ [] ∧
    IsDescriptorChanged (some (newD, dexD)) newD = false :=
  ⟨by decide,
   (c1_commit_requires_seqlock_agreement oldD newD memLoop (some (newD, dexD)) true).1
     (Or.inl (by decide))⟩

/-! ## C2 -/

/-- C2 (code bug): the sizeof_entry self-check of JITDescriptor::Valid never
rejects anything.  A 64-bit descriptor with version 1, magic "Android1" and
the right sizeof_descriptor passes validation whatever its sizeof_entry is,
because the precedence slip makes the comparison result unused. -/
theorem c2_sizeof_entry_never_checked :
    ∀ n : Nat,
      JITDescriptorRaw.Valid 8
        { version := 1, action_flag := 0, relevant_entry_addr := 0, first_entry_addr := 0,
          magic := android1Magic, flags := 0, sizeof_descriptor := 56, sizeof_entry := n,
          action_seqlock := 0, action_timestamp := 0 } = true := by
  intro n
  simp only [JITDescriptorRaw.Valid, JITDescriptorRaw.AndroidVersion, sizeofDescriptorFor,
    sizeofJITCodeEntry64, sizeofJITCodeEntry64V2]
  norm_num [android1Magic]
  split <;> simp

/-! ## C3 -/

/-- C3: a walk driven by descriptor `new` against stored descriptor `old`
follows at most (new.action_seqlock - old.action_seqlock) / 2 hops, the
subtraction being unsigned 32-bit; the hop counter of any completed walk is
bounded by that limit, null next pointers or not. -/
theorem c3_walk_hop_bound (old_descriptor new_descriptor : Descriptor) (mem : TargetMem)
    (es : List CodeEntry) (hops : Nat)
    (h : ReadNewCodeEntries mem new_descriptor old_descriptor.action_timestamp
        (u32sub new_descriptor.action_seqlock old_descriptor.action_seqlock / 2) =
      some (es, hops)) :
    hops ≤ u32sub new_descriptor.action_seqlock old_descriptor.action_seqlock / 2 := by
  unfold ReadNewCodeEntries at h
  split at h
  · have := readNewCodeEntriesLoop_hops_le v1Ops mem.readV1
      old_descriptor.action_timestamp _ _ _ _ _ _ _ _ h
    omega
  · split at h
    · have := readNewCodeEntriesLoop_hops_le v2Ops mem.readV2
        old_descriptor.action_timestamp _ _ _ _ _ _ _ _ h
      omega
    · cases h

/-- Witness for C3: a concrete walk in the one-node cyclic memory, where the
next pointer never becomes null; the walk stops after exactly the one hop
the seqlock difference 2 allows. -/
theorem c3_walk_hop_bound_witness :
    ReadNewCodeEntries memLoop newD oldD.action_timestamp
        (u32sub newD.action_seqlock oldD.action_seqlock / 2) =
      some ([{ addr := 16, symfile_addr := 100, symfile_size := 8, timestamp := 50 }], 1) ∧
    1 ≤ u32sub newD.action_seqlock oldD.action_seqlock / 2 :=
  ⟨by decide,
   c3_walk_hop_bound oldD newD memLoop
     [{ addr := 16, symfile_addr := 100, symfile_size := 8, timestamp := 50 }] 1 (by decide)⟩

/-! ## C4 -/

/-- Validity predicate for v2 entries as the claim words it: the v1 field
conditions plus an even per-entry seqlock.  Stated from the claim, for
comparison with JITCodeEntryV2.Valid. -/
def claimV2Valid (e : JITCodeEntryV2) : Bool :=
  decide (0 < e.symfile_addr) && decide (0 < e.symfile_size) && decide (e.seqlock &&& 1 = 0)

/-- Target memory holding one v2 entry at address 16 with an even seqlock
but symfile_addr = 0 and symfile_size = 0. -/
def memC4 : TargetMem where
  readV1 := fun _ => none
  readV2 := fun a => if a = 16 then
    some { next_addr := 0, prev_addr := 0, symfile_addr := 0, symfile_size := 0,
           register_timestamp := 50, seqlock := 0 }
    else none

/-- A version-2 JIT descriptor whose list head is the entry at 16. -/
def descC4 : Descriptor :=
  { type := DescriptorType.kJIT, version := 2, action_seqlock := 2, action_timestamp := 10,
    first_entry_addr := 16 }

/-- Counterexample to C4: the v2 entry with symfile_addr = 0, symfile_size =
0 and even seqlock satisfies the code predicate though the claim predicate
rejects it, and a walk through it completes instead of aborting. -/
theorem c4_counterexample :
    JITCodeEntryV2.Valid
      { next_addr := 0, prev_addr := 0, symfile_addr := 0, symfile_size := 0,
        register_timestamp := 50, seqlock := 0 } = true ∧
    claimV2Valid
      { next_addr := 0, prev_addr := 0, symfile_addr := 0, symfile_size := 0,
        register_timestamp := 50, seqlock := 0 } = false ∧
    ReadNewCodeEntries memC4 descC4 0 5 = some ([], 1) := by
  decide

/-- C4 as amended: a v1 entry is valid iff symfile_addr > 0 and
symfile_size > 0; a v2 entry is valid iff its per-entry seqlock is even (the
v1 field conditions are not required of it); and any entry read during the
walk that fails its predicate aborts the walk. -/
theorem c4_amended_validity :
    (∀ e : JITCodeEntry, e.Valid = true ↔ 0 < e.symfile_addr ∧ 0 < e.symfile_size) ∧
    (∀ e : JITCodeEntryV2, e.Valid = true ↔ e.seqlock % 2 = 0) ∧
    (∀ {α : Type} (ops : CodeEntryOps α) (read : Nat → Option α)
       (ts fuel current prev : Nat) (visited : List Nat) (acc : List CodeEntry) (hops : Nat)
       (e : α),
       current ≠ 0 → current ∉ visited → read current = some e → ops.valid e = false →
       readNewCodeEntriesLoop ops read ts (fuel + 1) current prev visited acc hops = none) := by
  refine ⟨?_, ?_, ?_⟩
  · intro e
    simp [JITCodeEntry.Valid]
  · intro e
    rw [JITCodeEntryV2.Valid, Nat.and_one_is_mod]
    simp
  · intro α ops read ts fuel current prev visited acc hops e h0 hvis hread hvalid
    simp only [readNewCodeEntriesLoop, if_neg h0, if_neg hvis, hread]
    rw [if_pos (Or.inr hvalid)]

/-- Witness for C4 amended: the abort clause at a concrete invalid v1 entry
(symfile_addr = 0), together with concrete instances of both validity
equivalences. -/
theorem c4_amended_validity_witness :
    readNewCodeEntriesLoop v1Ops
      (fun a => if a = 16 then
        some { next_addr := 0, prev_addr := 0, symfile_addr := 0, symfile_size := 8,
               register_timestamp := 50 }
        else none)
      0 3 16 0 [] [] 0 = none ∧
    (JITCodeEntry.Valid
       { next_addr := 0, prev_addr := 0, symfile_addr := 100,
         symfile_size := 8, register_timestamp := 50 } = true ↔ 0 < 100 ∧ 0 < 8) ∧
    (JITCodeEntryV2.Valid
       { next_addr := 0, prev_addr := 0, symfile_addr := 0,
         symfile_size := 0, register_timestamp := 50, seqlock := 0 } = true ↔ 0 % 2 = 0) :=
  ⟨c4_amended_validity.2.2 v1Ops _ 0 2 16 0 [] [] 0
     { next_addr := 0, prev_addr := 0, symfile_addr := 0, symfile_size := 8,
       register_timestamp := 50 }
     (by decide) (by simp) (by decide) (by decide),
   c4_amended_validity.1 _, c4_amended_validity.2.1 _⟩

/-! ## C5 -/

/-- Counterexample to C5: the list headed at 16 contains a cycle (the head
points back to itself), yet with a seqlock difference of 2 the read-entry
limit is 1, the walk stops at the budget before revisiting anything, the
entry is committed and the stored descriptor is updated. -/
theorem c5_counterexample :
    memLoop.readV1 newD.first_entry_addr =
      some { next_addr := 16, prev_addr := 0, symfile_addr := 100, symfile_size := 8,
             register_timestamp := 50 } ∧
    (16 : Nat) = newD.first_entry_addr ∧
    ReadDebugInfo oldD newD memLoop (some (newD, dexD)) true =
      ([{ addr := 16, symfile_addr := 100, symfile_size := 8, timestamp := 50 }], newD, true) ∧
    newD ≠ oldD := by
  decide

/-- C5 as amended: a cycle is rejected when the walker actually revisits a
node within its read-entry limit and before the timestamp cutoff: arriving
at an already-visited address fails the walk, and a failed walk commits no
entries and leaves the stored descriptor unchanged.  A cycle whose revisit
lies beyond the read-entry limit (or past the cutoff) is not detected. -/
theorem c5_amended_cycle_rejection :
    (∀ {α : Type} (ops : CodeEntryOps α) (read : Nat → Option α)
       (ts fuel current prev : Nat) (visited : List Nat) (acc : List CodeEntry) (hops : Nat),
       current ≠ 0 → current ∈ visited →
       readNewCodeEntriesLoop ops read ts (fuel + 1) current prev visited acc hops = none) ∧
    (∀ (old_descriptor new_descriptor : Descriptor) (mem : TargetMem)
       (reRead : Option (Descriptor × Descriptor)) (emitOk : Bool),
       ReadNewCodeEntries mem new_descriptor old_descriptor.action_timestamp
           (u32sub new_descriptor.action_seqlock old_descriptor.action_seqlock / 2) = none →
       ReadDebugInfo old_descriptor new_descriptor mem reRead emitOk =
         ([], old_descriptor, true)) := by
  constructor
  · intro α ops read ts fuel current prev visited acc hops h0 hvis
    simp only [readNewCodeEntriesLoop, if_neg h0, if_pos hvis]
  · intro old_descriptor new_descriptor mem reRead emitOk hwalk
    unfold ReadDebugInfo
    split
    · rfl
    · rw [hwalk]

/-- Witness for C5 amended: a two-hop budget in the one-node cyclic memory
does revisit the head and the whole tick is a no-op, stored descriptor
unchanged. -/
theorem c5_amended_cycle_rejection_witness :
    ReadDebugInfo oldD
      { type := DescriptorType.kJIT, version := 1, action_seqlock := 4, action_timestamp := 10,
        first_entry_addr := 16 } memLoop (some (newD, dexD)) true = ([], oldD, true) :=
  c5_amended_cycle_rejection.2 oldD
    { type := DescriptorType.kJIT, version := 1, action_seqlock := 4, action_timestamp := 10,
      first_entry_addr := 16 } memLoop (some (newD, dexD)) true (by decide)

/-! ## C10 -/

/-- C10: the consumer callback is never handed an empty batch.  AddDebugInfo
with an empty vector leaves the queue alone and returns without a callback
(in either mode); when AddDebugInfo does invoke the callback the batch is
its nonempty argument; and FlushDebugInfo invokes the callback only when
some queued record sits below the watermark, and then with a nonempty
batch. -/
theorem c10_no_empty_batch :
    (∀ (syncWithRecords : Bool) (q : List JITDebugInfo) (sk : Bool),
       AddDebugInfo syncWithRecords q [] sk = (q, none)) ∧
    (∀ (syncWithRecords : Bool) (q q2 infos batch : List JITDebugInfo) (sk flag : Bool),
       AddDebugInfo syncWithRecords q infos sk = (q2, some (batch, flag)) → batch ≠ []) ∧
    (∀ (q q2 : List JITDebugInfo) (w : Nat) (batch : List JITDebugInfo) (flag : Bool),
       FlushDebugInfo true q w = (q2, some (batch, flag)) →
       (∃ r ∈ q, r.timestamp < w) ∧ batch ≠ []) := by
  refine ⟨?_, ?_, ?_⟩
  · intro sync q sk
    simp [AddDebugInfo]
  · intro sync q q2 infos batch sk flag h
    unfold AddDebugInfo at h
    split at h
    · simp at h
    · rename_i hne
      split at h
      · simp at h
      · injection h with h1 h2
        injection h2 with h3
        injection h3 with h4 h5
        intro hb
        exact hne (h4.trans hb)
  · intro q q2 w batch flag h
    cases q with
    | nil => simp [FlushDebugInfo] at h
    | cons x xs =>
      by_cases hx : x.timestamp < w
      · have hF : FlushDebugInfo true (x :: xs) w =
            ((drainBelow w (x :: xs)).2, some ((drainBelow w (x :: xs)).1, false)) := by
          simp [FlushDebugInfo, hx]
        rw [hF] at h
        injection h with h1 h2
        injection h2 with h3
        injection h3 with h4 h5
        refine ⟨⟨x, List.mem_cons_self _ _, hx⟩, ?_⟩
        rw [← h4]
        simp [drainBelow, if_pos hx]
      · have hF : FlushDebugInfo true (x :: xs) w = (x :: xs, none) := by
          simp [FlushDebugInfo, hx]
        rw [hF] at h
        simp at h

/-- A debug-info record with the given timestamp, for queue scenarios. -/
def recTs (t : Nat) : JITDebugInfo :=
  { pid := 1, timestamp := t, payload := DebugPayload.jit 0 0 ScratchKind.app 0 0 }

/-- Witness for C10: a concrete flush whose callback fires, at which the
theorem yields a below-watermark record and a nonempty batch. -/
theorem c10_no_empty_batch_witness :
    (∃ r ∈ [recTs 50], r.timestamp < 100) ∧ [recTs 50] ≠ [] :=
  c10_no_empty_batch.2.2 [recTs 50] [] 100 [recTs 50] false (by decide)

/-! ## C6 -/

/-- Counterexample to C6: a record timestamped 30 enqueued after a flush at
watermark 100 already delivered records timestamped 50 and 90 is delivered
by the next flush, so the timestamps the consumer sees across flushes are
50, 90, 30: not non-decreasing. -/
theorem c6_counterexample :
    deliveredTs (runOrdered
      [QOp.add [recTs 50, recTs 90] true, QOp.flush 100,
       QOp.add [recTs 30] true, QOp.flush 110] []).2 = [50, 90, 30] ∧
    ¬ List.Chain' (· ≤ ·) [50, 90, 30] := by
  constructor
  · rfl
  · intro hc
    rcases List.chain'_cons.mp hc with ⟨_, hc2⟩
    rcases List.chain'_cons.mp hc2 with ⟨hle, _⟩
    omega

/-- The hypothesis under which ordered delivery is monotone: every record
handed to AddDebugInfo is timestamped no earlier than any watermark already
passed to FlushDebugInfo. -/
def addsRespectWatermarks : List QOp → Bool
  | [] => true
  | QOp.add _ _ :: rest => addsRespectWatermarks rest
  | QOp.flush w :: rest =>
    (rest.all fun op =>
      match op with
      | QOp.add infos _ => infos.all fun r => decide (w ≤ r.timestamp)
      | QOp.flush _ => true) && addsRespectWatermarks rest

/-- Membership in the sorted insert. -/
theorem mem_insertByTs (x r : JITDebugInfo) :
    ∀ l : List JITDebugInfo, x ∈ insertByTs r l ↔ x = r ∨ x ∈ l := by
  intro l
  induction l with
  | nil => simp [insertByTs]
  | cons a as ih =>
    rw [insertByTs]
    split
    · simp [List.mem_cons]
    · simp only [List.mem_cons, ih]
      tauto

/-- The sorted insert keeps the queue sorted by timestamp. -/
theorem insertByTs_pairwise (r : JITDebugInfo) :
    ∀ l : List JITDebugInfo,
      l.Pairwise (fun a b => a.timestamp ≤ b.timestamp) →
      (insertByTs r l).Pairwise (fun a b => a.timestamp ≤ b.timestamp) := by
  intro l
  induction l with
  | nil => intro _; simp [insertByTs]
  | cons a as ih =>
    intro h
    obtain ⟨ha, has⟩ := List.pairwise_cons.mp h
    rw [insertByTs]
    split
    · rename_i hlt
      refine List.Pairwise.cons ?_ h
      intro y hy
      rcases List.mem_cons.mp hy with rfl | hy
      · exact Nat.le_of_lt hlt
      · exact Nat.le_trans (Nat.le_of_lt hlt) (ha y hy)
    · rename_i hge
      refine List.Pairwise.cons ?_ (ih has)
      intro y hy
      rcases (mem_insertByTs y r as).mp hy with rfl | hy
      · exact Nat.le_of_not_lt hge
      · exact ha y hy

/-- Membership after pushing a whole batch. -/
theorem mem_foldl_insertByTs :
    ∀ (infos : List JITDebugInfo) (q : List JITDebugInfo) (x : JITDebugInfo),
      x ∈ infos.foldl (fun acc i => insertByTs i acc) q ↔ x ∈ q ∨ x ∈ infos := by
  intro infos
  induction infos with
  | nil => simp
  | cons i is ih =>
    intro q x
    rw [List.foldl_cons, ih, mem_insertByTs]
    simp only [List.mem_cons]
    tauto

/-- Pushing a whole batch keeps the queue sorted. -/
theorem foldl_insertByTs_pairwise :
    ∀ (infos : List JITDebugInfo) (q : List JITDebugInfo),
      q.Pairwise (fun a b => a.timestamp ≤ b.timestamp) →
      (infos.foldl (fun acc i => insertByTs i acc) q).Pairwise
        (fun a b => a.timestamp ≤ b.timestamp) := by
  intro infos
  induction infos with
  | nil => intro q h; exact h
  | cons i is ih =>
    intro q h
    rw [List.foldl_cons]
    exact ih _ (insertByTs_pairwise i q h)

/-- The drain loop is takeWhile / dropWhile on the below-watermark test. -/
theorem drainBelow_eq (w : Nat) :
    ∀ l : List JITDebugInfo,
      drainBelow w l = (l.takeWhile (fun r => decide (r.timestamp < w)),
                        l.dropWhile (fun r => decide (r.timestamp < w))) := by
  intro l
  induction l with
  | nil => rfl
  | cons x xs ih =>
    rw [drainBelow, List.takeWhile_cons, List.dropWhile_cons]
    split
    · rename_i hx
      rw [ih]
      simp [hx]
    · rename_i hx
      simp [hx]

/-- Everything the drain loop pops is strictly below the watermark, whatever
the queue looks like. -/
theorem drainBelow_fst_lt (w : Nat) :
    ∀ l : List JITDebugInfo, ∀ r ∈ (drainBelow w l).1, r.timestamp < w := by
  intro l
  induction l with
  | nil => simp [drainBelow]
  | cons x xs ih =>
    intro r hr
    rw [drainBelow] at hr
    split at hr
    · rename_i hx
      rcases List.mem_cons.mp hr with rfl | hr
      · exact hx
      · exact ih r hr
    · cases hr

/-- Unconditionally, over any trace and any starting queue, every delivery
the ordered-mode run makes carries only records strictly below its watermark
and the flag false. -/
theorem runOrdered_deliveries (trace : List QOp) :
    ∀ q : List JITDebugInfo, ∀ d ∈ (runOrdered trace q).2,
      (∀ r ∈ d.2.1, r.timestamp < d.1) ∧ d.2.2 = false := by
  induction trace with
  | nil =>
    intro q
    simp [runOrdered]
  | cons op rest ih =>
    intro q
    cases op with
    | add infos sk =>
      have hstep : runOrdered (QOp.add infos sk :: rest) q =
          runOrdered rest (AddDebugInfo true q infos sk).1 := rfl
      rw [hstep]
      exact ih _
    | flush w =>
      cases q with
      | nil =>
        have hF : FlushDebugInfo true ([] : List JITDebugInfo) w = ([], none) := by
          simp [FlushDebugInfo]
        simp only [runOrdered, hF]
        exact ih []
      | cons x xs =>
        by_cases hx : x.timestamp < w
        · have hF : FlushDebugInfo true (x :: xs) w =
              ((drainBelow w (x :: xs)).2, some ((drainBelow w (x :: xs)).1, false)) := by
            simp [FlushDebugInfo, hx]
          simp only [runOrdered, hF]
          intro d hd
          rcases List.mem_cons.mp hd with rfl | hd
          · exact ⟨drainBelow_fst_lt w (x :: xs), rfl⟩
          · exact ih _ d hd
        · have hF : FlushDebugInfo true (x :: xs) w = (x :: xs, none) := by
            simp [FlushDebugInfo, hx]
          simp only [runOrdered, hF]
          exact ih _

/-- In a sorted queue, everything the drain leaves behind is at or above the
watermark. -/
theorem dropWhile_ts_ge (w : Nat) :
    ∀ l : List JITDebugInfo,
      l.Pairwise (fun a b => a.timestamp ≤ b.timestamp) →
      ∀ r ∈ l.dropWhile (fun x => decide (x.timestamp < w)), w ≤ r.timestamp := by
  intro l
  induction l with
  | nil => simp
  | cons x xs ih =>
    intro h r hr
    rw [List.dropWhile_cons] at hr
    split at hr
    · exact ih (List.pairwise_cons.mp h).2 r hr
    · rename_i hx
      have hwx : w ≤ x.timestamp := Nat.le_of_not_lt (by simpa using hx)
      rcases List.mem_cons.mp hr with rfl | hr
      · exact hwx
      · exact Nat.le_trans hwx ((List.pairwise_cons.mp h).1 r hr)

/-- Invariant run of the ordered-mode queue: starting from a sorted queue
whose records are all at or above `D`, with every later add at or above `D`
and at or above every later flush watermark, each delivery is strictly below
its watermark with flag false, and the delivered timestamps prefixed by `D`
form a non-decreasing chain. -/
theorem runOrdered_good (trace : List QOp) :
    ∀ (q : List JITDebugInfo) (D : Nat),
      q.Pairwise (fun a b => a.timestamp ≤ b.timestamp) →
      (∀ r ∈ q, D ≤ r.timestamp) →
      addsRespectWatermarks trace = true →
      (∀ infos sk, QOp.add infos sk ∈ trace → ∀ r ∈ infos, D ≤ r.timestamp) →
      (∀ d ∈ (runOrdered trace q).2, (∀ r ∈ d.2.1, r.timestamp < d.1) ∧ d.2.2 = false) ∧
      List.Chain' (· ≤ ·) (D :: deliveredTs (runOrdered trace q).2) := by
  induction trace with
  | nil =>
    intro q D _ _ _ _
    exact ⟨by simp [runOrdered], by simp [runOrdered, deliveredTs]⟩
  | cons op rest ih =>
    intro q D hsort hqD hlegal hadds
    cases op with
    | add infos sk =>
      have hlegal2 : addsRespectWatermarks rest = true := by
        simpa [addsRespectWatermarks] using hlegal
      have haddsD : ∀ r ∈ infos, D ≤ r.timestamp :=
        hadds infos sk (List.mem_cons_self _ _)
      have hadds2 : ∀ infos2 sk2, QOp.add infos2 sk2 ∈ rest → ∀ r ∈ infos2, D ≤ r.timestamp :=
        fun i2 s2 hm => hadds i2 s2 (List.mem_cons_of_mem _ hm)
      have hstep : runOrdered (QOp.add infos sk :: rest) q =
          runOrdered rest (AddDebugInfo true q infos sk).1 := rfl
      rw [hstep]
      by_cases hinf : infos = []
      · subst hinf
        have hq1 : (AddDebugInfo true q [] sk).1 = q := by simp [AddDebugInfo]
        rw [hq1]
        exact ih q D hsort hqD hlegal2 hadds2
      · have hq1 : (AddDebugInfo true q infos sk).1 =
            infos.foldl (fun acc i => insertByTs i acc) q := by
          simp [AddDebugInfo, hinf]
        rw [hq1]
        refine ih _ D (foldl_insertByTs_pairwise _ _ hsort) ?_ hlegal2 hadds2
        intro r hr
        rcases (mem_foldl_insertByTs infos q r).mp hr with hr | hr
        · exact hqD r hr
        · exact haddsD r hr
    | flush w =>
      obtain ⟨hall, hlegal2⟩ : (rest.all fun op =>
          match op with
          | QOp.add infos _ => infos.all fun r => decide (w ≤ r.timestamp)
          | QOp.flush _ => true) = true ∧ addsRespectWatermarks rest = true := by
        simpa [addsRespectWatermarks] using hlegal
      have hadds2 : ∀ infos2 sk2, QOp.add infos2 sk2 ∈ rest → ∀ r ∈ infos2, D ≤ r.timestamp :=
        fun i2 s2 hm => hadds i2 s2 (List.mem_cons_of_mem _ hm)
      have haddsW : ∀ infos2 sk2, QOp.add infos2 sk2 ∈ rest → ∀ r ∈ infos2, w ≤ r.timestamp := by
        intro i2 s2 hm r hr
        have := List.all_eq_true.mp hall _ hm
        simpa using List.all_eq_true.mp this r hr
      cases q with
      | nil =>
        have hF : FlushDebugInfo true ([] : List JITDebugInfo) w = ([], none) := by
          simp [FlushDebugInfo]
        simp only [runOrdered, hF]
        exact ih [] D (by simp) (by simp) hlegal2 hadds2
      | cons x xs =>
        by_cases hx : x.timestamp < w
        · have hF : FlushDebugInfo true (x :: xs) w =
              ((drainBelow w (x :: xs)).2, some ((drainBelow w (x :: xs)).1, false)) := by
            simp [FlushDebugInfo, hx]
          simp only [runOrdered, hF, drainBelow_eq]
          have happ : ((x :: xs).takeWhile fun r => decide (r.timestamp < w)) ++
              ((x :: xs).dropWhile fun r => decide (r.timestamp < w)) = x :: xs :=
            List.takeWhile_append_dropWhile _ _
          have hsort2 : (((x :: xs).takeWhile fun r => decide (r.timestamp < w)) ++
              ((x :: xs).dropWhile fun r => decide (r.timestamp < w))).Pairwise
                (fun a b => a.timestamp ≤ b.timestamp) := by
            rw [happ]; exact hsort
          obtain ⟨hPb, hPq2, hcross⟩ := List.pairwise_append.mp hsort2
          have hbatch_lt : ∀ r ∈ (x :: xs).takeWhile (fun r => decide (r.timestamp < w)),
              r.timestamp < w := by
            intro r hr
            simpa using List.mem_takeWhile_imp hr
          have hbatchD : ∀ r ∈ (x :: xs).takeWhile (fun r => decide (r.timestamp < w)),
              D ≤ r.timestamp := by
            intro r hr
            have hmem : r ∈ ((x :: xs).takeWhile fun r => decide (r.timestamp < w)) ++
                ((x :: xs).dropWhile fun r => decide (r.timestamp < w)) :=
              List.mem_append_left _ hr
            rw [happ] at hmem
            exact hqD r hmem
          have hq2w := dropWhile_ts_ge w (x :: xs) hsort
          obtain ⟨hdR, hcR⟩ :=
            ih ((x :: xs).dropWhile fun r => decide (r.timestamp < w)) w hPq2 hq2w hlegal2 haddsW
          constructor
          · intro d hd
            rcases List.mem_cons.mp hd with rfl | hd
            · exact ⟨hbatch_lt, rfl⟩
            · exact hdR d hd
          · have hdts : deliveredTs ((w, (x :: xs).takeWhile (fun r => decide (r.timestamp < w)),
                false) ::
                  (runOrdered rest ((x :: xs).dropWhile fun r => decide (r.timestamp < w))).2) =
                ((x :: xs).takeWhile (fun r => decide (r.timestamp < w))).map
                    (fun r => r.timestamp) ++
                  deliveredTs
                    (runOrdered rest ((x :: xs).dropWhile fun r => decide (r.timestamp < w))).2 := by
              simp [deliveredTs]
            rw [hdts, ← List.cons_append]
            refine List.chain'_append.mpr ⟨?_, hcR.tail, ?_⟩
            · rw [List.chain'_iff_pairwise]
              refine List.pairwise_cons.mpr ⟨?_, ?_⟩
              · intro t ht
                obtain ⟨r, hr, rfl⟩ := List.mem_map.mp ht
                exact hbatchD r hr
              · exact List.pairwise_map.mpr hPb
            · intro a ha y hy
              have hy2 : w ≤ y := (List.chain'_cons'.mp hcR).1 y hy
              obtain ⟨hne, rfl⟩ := List.mem_getLast?_eq_getLast ha
              have hmem := List.getLast_mem hne
              rcases List.mem_cons.mp hmem with heq | hmem
              · have hDw : D ≤ x.timestamp := hqD x (List.mem_cons_self _ _)
                rw [heq]
                omega
              · obtain ⟨r, hr, hrts⟩ := List.mem_map.mp hmem
                have := hbatch_lt r hr
                omega
        · have hF : FlushDebugInfo true (x :: xs) w = (x :: xs, none) := by
            simp [FlushDebugInfo, hx]
          simp only [runOrdered, hF]
          exact ih (x :: xs) D hsort hqD hlegal2 hadds2

/-- C6 as amended: in ordered delivery mode, on every trace whatsoever,
every record delivered has timestamp strictly below the watermark that
triggered its flush and every watermark-driven batch carries
sync-with-kernel-records = false; the timestamps delivered across all
flushes are non-decreasing provided every record enqueued is timestamped no
earlier than each watermark already passed to a flush (a record enqueued
after a higher watermark has flushed is still delivered - strictly below its
own watermark, flag false - just out of order, as the counterexample
shows). -/
theorem c6_amended_ordered_delivery (trace : List QOp) :
    (∀ d ∈ (runOrdered trace []).2, (∀ r ∈ d.2.1, r.timestamp < d.1) ∧ d.2.2 = false) ∧
    (addsRespectWatermarks trace = true →
      List.Chain' (· ≤ ·) (deliveredTs (runOrdered trace []).2)) := by
  refine ⟨runOrdered_deliveries trace [], fun h => ?_⟩
  exact (runOrdered_good trace [] 0 (by simp) (by simp) h
    (fun _ _ _ r _ => Nat.zero_le _)).2.tail

/-- Witness for C6 amended: the unconditional below-watermark and flag
clauses on the ill-behaved trace of the counterexample, and the monotone
chain on a concrete well-behaved trace. -/
theorem c6_amended_ordered_delivery_witness :
    (∀ d ∈ (runOrdered [QOp.add [recTs 50, recTs 90] true, QOp.flush 100,
        QOp.add [recTs 30] true, QOp.flush 110] []).2,
      (∀ r ∈ d.2.1, r.timestamp < d.1) ∧ d.2.2 = false) ∧
    List.Chain' (· ≤ ·) (deliveredTs (runOrdered [QOp.add [recTs 50] true, QOp.flush 100,
        QOp.add [recTs 150] true, QOp.flush 200] []).2) :=
  ⟨(c6_amended_ordered_delivery
      [QOp.add [recTs 50, recTs 90] true, QOp.flush 100,
       QOp.add [recTs 30] true, QOp.flush 110]).1,
   (c6_amended_ordered_delivery
      [QOp.add [recTs 50] true, QOp.flush 100, QOp.add [recTs 150] true, QOp.flush 200]).2
     (by decide)⟩

/-! ## C7 and C9 -/

/-- GetTempSymFile succeeds whenever scratch creation succeeds. -/
theorem GetTempSymFile_isSome (env : JITReadEnv) (p : Process) (scratch : ScratchState)
    (addr : Nat) (hca : env.createAppOk = true) (hcz : env.createZygoteOk = true) :
    (GetTempSymFile env p scratch addr).isSome = true := by
  unfold GetTempSymFile
  split
  · cases h : scratch.zygoteFile with
    | some v => simp [h]
    | none => simp [h, hcz]
  · cases h : scratch.appFile with
    | some v => simp [h]
    | none => simp [h, hca]

/-- Ingestion environment where every external call succeeds and each
symfile parses to one symbol. -/
def envC7 : JITReadEnv where
  readOk := fun _ _ => true
  elfMagicOk := fun _ _ => true
  elfOpenOk := fun _ _ => true
  symbols := fun _ _ => [{ vaddr := 4096, len := 32 }]
  createAppOk := true
  createZygoteOk := true
  writeOk := fun _ _ => true

/-- A process with no zygote cache ranges. -/
def procC7 : Process := { pid := 7, died := false, jit_zygote_cache_ranges := [] }

/-- A JIT entry whose symfile is exactly 1 MiB. -/
def entryExactC7 : CodeEntry :=
  { addr := 16, symfile_addr := 1000, symfile_size := MAX_JIT_SYMFILE_SIZE, timestamp := 40 }

/-- A JIT entry whose symfile is 1 MiB + 1 byte. -/
def entryOverC7 : CodeEntry :=
  { addr := 16, symfile_addr := 1000, symfile_size := MAX_JIT_SYMFILE_SIZE + 1, timestamp := 40 }

/-- C7: a symfile above the 1 MiB cap is skipped with no trace at all (the
head entry is dropped and the batch continues as if it were absent, no error,
no died mark), while a symfile of exactly 1 MiB is read, appended to the
scratch (its offset advances by the full size) and its symbols emitted, the
batch ending in success. -/
theorem c7_symfile_size_cap :
    (∀ (env : JITReadEnv) (p : Process) (scratch : ScratchState) (e : CodeEntry)
       (rest : List CodeEntry),
       MAX_JIT_SYMFILE_SIZE < e.symfile_size →
       ReadJITCodeDebugInfo env p scratch (e :: rest) =
         ReadJITCodeDebugInfo env p scratch rest) ∧
    ReadJITCodeDebugInfo envC7 procC7 { appFile := none, zygoteFile := none } [entryExactC7] =
      (procC7, { appFile := some MAX_JIT_SYMFILE_SIZE, zygoteFile := none },
       [{ pid := 7, timestamp := 40,
          payload := DebugPayload.jit 4096 32 ScratchKind.app 0 MAX_JIT_SYMFILE_SIZE }],
       true) ∧
    ReadJITCodeDebugInfo envC7 procC7 { appFile := none, zygoteFile := none } [entryOverC7] =
      (procC7, { appFile := none, zygoteFile := none }, [], true) := by
  refine ⟨?_, by decide, by decide⟩
  intro env p scratch e rest hover
  simp only [ReadJITCodeDebugInfo]
  rw [if_pos hover]

/-- Witness for C7: the oversized entry in front of a batch is skipped and
the rest of the batch is still processed. -/
theorem c7_symfile_size_cap_witness :
    ReadJITCodeDebugInfo envC7 procC7 { appFile := none, zygoteFile := none }
        [entryOverC7, entryExactC7] =
      ReadJITCodeDebugInfo envC7 procC7 { appFile := none, zygoteFile := none }
        [entryExactC7] :=
  c7_symfile_size_cap.1 envC7 procC7 { appFile := none, zygoteFile := none } entryOverC7
    [entryExactC7] (by decide)

/-- C9: a short cross-process read of one entry only marks the process died
and the ingestion continues with the remaining entries unchanged, and when
scratch creation and writes always succeed the ingestion returns true
whatever else happens: the fatal false can only come from a failed create or
write. -/
theorem c9_short_read_not_fatal :
    (∀ (env : JITReadEnv) (p : Process) (scratch : ScratchState) (e : CodeEntry)
       (rest : List CodeEntry),
       e.symfile_size ≤ MAX_JIT_SYMFILE_SIZE →
       env.readOk e.symfile_addr e.symfile_size = false →
       ReadJITCodeDebugInfo env p scratch (e :: rest) =
         ReadJITCodeDebugInfo env { p with died := true } scratch rest) ∧
    (∀ (env : JITReadEnv) (p : Process) (scratch : ScratchState) (entries : List CodeEntry),
       env.createAppOk = true → env.createZygoteOk = true →
       (∀ o s, env.writeOk o s = true) →
       (ReadJITCodeDebugInfo env p scratch entries).2.2.2 = true) := by
  constructor
  · intro env p scratch e rest hsize hread
    simp only [ReadJITCodeDebugInfo]
    rw [if_neg (Nat.not_lt.mpr hsize), if_pos hread]
  · intro env p scratch entries hca hcz hwr
    induction entries generalizing p scratch with
    | nil => rfl
    | cons e rest ih =>
      simp only [ReadJITCodeDebugInfo]
      split
      · exact ih p scratch
      · split
        · exact ih _ scratch
        · split
          · exact ih p scratch
          · rcases hg : GetTempSymFile env p scratch e.symfile_addr with _ | ⟨kind, scratch1⟩
            · have hs := GetTempSymFile_isSome env p scratch e.symfile_addr hca hcz
              rw [hg] at hs
              cases hs
            · simp only [hg]
              rw [if_neg (by simp [hwr])]
              exact ih p (scratchWrite scratch1 kind e.symfile_size)

/-- Witness for C9: a concrete batch whose first read is short; the theorem
rewrites it to processing the tail with the process marked died, and a
batch processed under always-succeeding create and write returns true. -/
theorem c9_short_read_not_fatal_witness :
    ReadJITCodeDebugInfo
      { envC7 with readOk := fun a _ => decide (a ≠ 1000) } procC7
      { appFile := none, zygoteFile := none } [entryExactC7] =
      ReadJITCodeDebugInfo
        { envC7 with readOk := fun a _ => decide (a ≠ 1000) } { procC7 with died := true }
        { appFile := none, zygoteFile := none } [] ∧
    (ReadJITCodeDebugInfo envC7 procC7 { appFile := none, zygoteFile := none }
        [entryExactC7, entryExactC7]).2.2.2 = true :=
  ⟨c9_short_read_not_fatal.1 { envC7 with readOk := fun a _ => decide (a ≠ 1000) } procC7
     { appFile := none, zygoteFile := none } entryExactC7 [] (by decide) (by decide),
   c9_short_read_not_fatal.2 envC7 procC7 { appFile := none, zygoteFile := none }
     [entryExactC7, entryExactC7] rfl rfl (fun _ _ => rfl)⟩

/-! ## C8 -/

/-- The offset recorded in a DEX debug-info record. -/
def dexOffsetOf (info : JITDebugInfo) : Option Nat :=
  match info.payload with
  | DebugPayload.dex o _ _ => some o
  | _ => none

/-- The lower bound never passes the end of the list. -/
theorem lowerBoundIdx_le (addr : Nat) :
    ∀ maps : List ThreadMmap, lowerBoundIdx maps addr ≤ maps.length := by
  intro maps
  induction maps with
  | nil => exact Nat.le_refl 0
  | cons m rest ih =>
    rw [lowerBoundIdx]
    split
    · simpa using ih
    · exact Nat.zero_le _

/-- Every mapping before the lower bound starts at or below the address. -/
theorem lowerBoundIdx_prefix_le (addr : Nat) :
    ∀ (maps : List ThreadMmap) (k : Nat) (hkl : k < maps.length),
      k < lowerBoundIdx maps addr → (maps.get ⟨k, hkl⟩).start_addr ≤ addr := by
  intro maps
  induction maps with
  | nil => intro k hkl; cases hkl
  | cons m rest ih =>
    intro k hkl hk
    rw [lowerBoundIdx] at hk
    split at hk
    · rename_i hm
      cases k with
      | zero => exact hm
      | succ k2 =>
        have hkl2 : k2 < rest.length := Nat.lt_of_succ_lt_succ hkl
        exact ih k2 hkl2 (Nat.lt_of_succ_lt_succ hk)
    · cases hk

/-- In a sorted map list, every mapping at or after the lower bound starts
strictly above the address. -/
theorem lowerBoundIdx_suffix_gt (addr : Nat) :
    ∀ (maps : List ThreadMmap),
      maps.Pairwise (fun a b => a.start_addr ≤ b.start_addr) →
      ∀ (j : Nat) (hj : j < maps.length),
        lowerBoundIdx maps addr ≤ j → addr < (maps.get ⟨j, hj⟩).start_addr := by
  intro maps
  induction maps with
  | nil => intro _ j hj; cases hj
  | cons m rest ih =>
    intro hsorted j hj hlbj
    obtain ⟨hm_all, hrest⟩ := List.pairwise_cons.mp hsorted
    rw [lowerBoundIdx] at hlbj
    split at hlbj
    · rename_i hm
      cases j with
      | zero => cases hlbj
      | succ j2 =>
        have hj2 : j2 < rest.length := Nat.lt_of_succ_lt_succ hj
        exact ih hrest j2 hj2 (Nat.le_of_succ_le_succ hlbj)
    · rename_i hm
      have hm2 : addr < m.start_addr := Nat.lt_of_not_le hm
      cases j with
      | zero => exact hm2
      | succ j2 =>
        have hj2 : j2 < rest.length := Nat.lt_of_succ_lt_succ hj
        have : m.start_addr ≤ (rest.get ⟨j2, hj2⟩).start_addr :=
          hm_all _ (List.get_mem rest j2 hj2)
        exact Nat.lt_of_lt_of_le hm2 this

/-- One mapping [4096, 8192) for the wrap counterexample. -/
def mapsWrap : List ThreadMmap :=
  [{ start_addr := 4096, len := 4096, pgoff := 0, name := "w" }]

/-- A resolver environment over mapsWrap with only regular files. -/
def envWrap : DexEnv where
  thread_mmaps := some mapsWrap
  parseExtracted := fun _ => none
  isRegularFile := fun _ => true

/-- Counterexample to C8: with symfile_addr = 6144 and symfile_size =
2 ^ 64 - 2048 the uint64 sum symfile_addr + symfile_size wraps to 4096, so
the coverage check against the mapping [4096, 8192) passes and a record is
emitted, yet the interval [symfile_addr, symfile_addr + symfile_size) is not
contained in the mapping: the claimed containment fails on an emitted
entry. -/
theorem c8_counterexample :
    resolveDexEntry envWrap mapsWrap 5
      { addr := 1, symfile_addr := 6144, symfile_size := 2 ^ 64 - 2048, timestamp := 5 } =
      some { pid := 5, timestamp := 5, payload := DebugPayload.dex 2048 "w" none } ∧
    mapsWrap = [{ start_addr := 4096, len := 4096, pgoff := 0, name := "w" }] ∧
    ¬ (6144 + (2 ^ 64 - 2048) ≤ 4096 + 4096) := by
  refine ⟨by decide, rfl, by decide⟩

/-- C8 as amended: over a map list sorted by start address, every emitted
DEX record comes from the last mapping whose start is at or below the entry
address; that mapping passes the coverage check as the code computes it, in
wrapping 64-bit arithmetic - (symfile_addr + symfile_size) mod 2^64 at or
below (start + len) mod 2^64 - which is genuine containment of
[symfile_addr, symfile_addr + symfile_size) in the mapping whenever neither
sum overflows a uint64; the recorded offset is
(symfile_addr - start + pgoff) mod 2^64.  An entry for which no mapping
passes the check yields no record, and every record ReadDexFileDebugInfo
emits resolves from one of its entries this way. -/
theorem c8_amended_dex_mapping_resolution (env : DexEnv) (maps : List ThreadMmap) (pid : Nat)
    (e : CodeEntry)
    (hsorted : maps.Pairwise (fun a b => a.start_addr ≤ b.start_addr)) :
    (∀ info, resolveDexEntry env maps pid e = some info →
      ∃ i, ∃ hi : i < maps.length,
        (maps.get ⟨i, hi⟩).start_addr ≤ e.symfile_addr ∧
        (e.symfile_addr + e.symfile_size) % 2 ^ 64 ≤
          ((maps.get ⟨i, hi⟩).start_addr + (maps.get ⟨i, hi⟩).len) % 2 ^ 64 ∧
        (e.symfile_addr + e.symfile_size < 2 ^ 64 →
          (maps.get ⟨i, hi⟩).start_addr + (maps.get ⟨i, hi⟩).len < 2 ^ 64 →
          e.symfile_addr + e.symfile_size ≤
            (maps.get ⟨i, hi⟩).start_addr + (maps.get ⟨i, hi⟩).len) ∧
        (∀ j, ∀ hj : j < maps.length, i < j →
          e.symfile_addr < (maps.get ⟨j, hj⟩).start_addr) ∧
        dexOffsetOf info =
          some ((e.symfile_addr - (maps.get ⟨i, hi⟩).start_addr +
            (maps.get ⟨i, hi⟩).pgoff) % 2 ^ 64)) ∧
    ((∀ m ∈ maps, ¬ (m.start_addr ≤ e.symfile_addr ∧
        (e.symfile_addr + e.symfile_size) % 2 ^ 64 ≤ (m.start_addr + m.len) % 2 ^ 64)) →
      resolveDexEntry env maps pid e = none) ∧
    (∀ (p : Process) (entries : List CodeEntry) (info : JITDebugInfo),
      env.thread_mmaps = some maps →
      info ∈ (ReadDexFileDebugInfo env p entries).2 →
      ∃ e2 ∈ entries, resolveDexEntry env maps p.pid e2 = some info) := by
  have hmain : ∀ info, resolveDexEntry env maps pid e = some info →
      ∃ i, ∃ hi : i < maps.length,
        (maps.get ⟨i, hi⟩).start_addr ≤ e.symfile_addr ∧
        (e.symfile_addr + e.symfile_size) % 2 ^ 64 ≤
          ((maps.get ⟨i, hi⟩).start_addr + (maps.get ⟨i, hi⟩).len) % 2 ^ 64 ∧
        (e.symfile_addr + e.symfile_size < 2 ^ 64 →
          (maps.get ⟨i, hi⟩).start_addr + (maps.get ⟨i, hi⟩).len < 2 ^ 64 →
          e.symfile_addr + e.symfile_size ≤
            (maps.get ⟨i, hi⟩).start_addr + (maps.get ⟨i, hi⟩).len) ∧
        (∀ j, ∀ hj : j < maps.length, i < j →
          e.symfile_addr < (maps.get ⟨j, hj⟩).start_addr) ∧
        dexOffsetOf info =
          some ((e.symfile_addr - (maps.get ⟨i, hi⟩).start_addr +
            (maps.get ⟨i, hi⟩).pgoff) % 2 ^ 64) := by
    intro info h
    unfold resolveDexEntry at h
    split at h
    · cases h
    · rename_i i hlb
      have hi : i < maps.length := by
        have := lowerBoundIdx_le e.symfile_addr maps
        omega
      have hget : maps[i]? = some (maps.get ⟨i, hi⟩) := by
        rw [List.getElem?_eq_getElem hi]
        simp [List.get_eq_getElem]
      rw [hget] at h
      simp only [] at h
      split at h
      · cases h
      · rename_i hcov
        have hcov2 : (e.symfile_addr + e.symfile_size) % 2 ^ 64 ≤
            ((maps.get ⟨i, hi⟩).start_addr + (maps.get ⟨i, hi⟩).len) % 2 ^ 64 :=
          Nat.not_lt.mp hcov
        have hoff : dexOffsetOf info =
            some ((e.symfile_addr - (maps.get ⟨i, hi⟩).start_addr +
              (maps.get ⟨i, hi⟩).pgoff) % 2 ^ 64) := by
          split at h
          · rename_i pr zip_path entry_path hpe
            cases h
            rfl
          · split at h
            · cases h
            · cases h
              rfl
        refine ⟨i, hi, ?_, hcov2, ?_, ?_, hoff⟩
        · exact lowerBoundIdx_prefix_le e.symfile_addr maps i hi (by omega)
        · intro h1 h2
          have h3 := hcov2
          rw [Nat.mod_eq_of_lt h1, Nat.mod_eq_of_lt h2] at h3
          exact h3
        · intro j hj hij
          exact lowerBoundIdx_suffix_gt e.symfile_addr maps hsorted j hj (by omega)
  refine ⟨hmain, ?_, ?_⟩
  · intro hnone
    cases hres : resolveDexEntry env maps pid e with
    | none => rfl
    | some info =>
      obtain ⟨i, hi, h1, h2, _, _, _⟩ := hmain info hres
      exact absurd ⟨h1, h2⟩ (hnone _ (List.get_mem maps i hi))
  · intro p entries info hmm hin
    unfold ReadDexFileDebugInfo at hin
    rw [hmm] at hin
    simpa using List.mem_filterMap.mp hin

/-- Two sorted mappings with pgoff 0 and 4096. -/
def mapsW : List ThreadMmap :=
  [{ start_addr := 100, len := 50, pgoff := 0, name := "a" },
   { start_addr := 200, len := 50, pgoff := 4096, name := "b" }]

/-- A resolver environment over mapsW with only regular files. -/
def envW : DexEnv where
  thread_mmaps := some mapsW
  parseExtracted := fun _ => none
  isRegularFile := fun _ => true

/-- Witness for C8 amended: a DEX entry at 400..408, for which no mapping
of mapsW passes the coverage check, produces no record, and an entry at
210..218 emits a record resolved from the mapping [200, 250) with offset
210 - 200 + 4096, both by the theorem. -/
theorem c8_amended_dex_mapping_resolution_witness :
    resolveDexEntry envW mapsW 5
      { addr := 1, symfile_addr := 400, symfile_size := 8, timestamp := 5 } = none ∧
    (∃ i, ∃ hi : i < mapsW.length,
      (mapsW.get ⟨i, hi⟩).start_addr ≤ 210 ∧
      (210 + 8) % 2 ^ 64 ≤ ((mapsW.get ⟨i, hi⟩).start_addr + (mapsW.get ⟨i, hi⟩).len) % 2 ^ 64 ∧
      (210 + 8 < 2 ^ 64 → (mapsW.get ⟨i, hi⟩).start_addr + (mapsW.get ⟨i, hi⟩).len < 2 ^ 64 →
        210 + 8 ≤ (mapsW.get ⟨i, hi⟩).start_addr + (mapsW.get ⟨i, hi⟩).len) ∧
      (∀ j, ∀ hj : j < mapsW.length, i < j → 210 < (mapsW.get ⟨j, hj⟩).start_addr) ∧
      dexOffsetOf { pid := 5, timestamp := 5, payload := DebugPayload.dex 4106 "b" none } =
        some ((210 - (mapsW.get ⟨i, hi⟩).start_addr + (mapsW.get ⟨i, hi⟩).pgoff) % 2 ^ 64)) :=
  ⟨(c8_amended_dex_mapping_resolution envW mapsW 5
      { addr := 1, symfile_addr := 400, symfile_size := 8, timestamp := 5 }
      (by decide)).2.1 (by decide),
   (c8_amended_dex_mapping_resolution envW mapsW 5
      { addr := 1, symfile_addr := 210, symfile_size := 8, timestamp := 5 }
      (by decide)).1
     { pid := 5, timestamp := 5, payload := DebugPayload.dex 4106 "b" none } (by decide)⟩

end JITDebug
